import Mathlib

/-!
Verification of the CCS811 air-quality sensor driver (CCS811.py).

The driver is embedded shallowly: the device handle becomes an explicit
state record, bus and pin interactions become oracle inputs and effect
traces, Python floats become rationals, and Python exceptions become an
explicit error kind threaded through `Except`.  Each definition mirrors
one method of the `CCS811` class.
-/

/-- Classes of Python exceptions relevant to the driver.  The constructor
catches `(ValueError, GPIOError)`; `dataReady` retries on `OSError`
(transport timeout); accessing a never-assigned attribute raises
`AttributeError`. -/
inductive EKind where
  | valueError
  | gpioError
  | osError
  | attrError
  | otherError
  deriving DecidableEq, Repr

/-- Python attribute slot: reading an `unassigned` slot raises
`AttributeError`; `assigned` holds the stored value (which may be
Python's `None`, modelled by an inner `Option`). -/
inductive Attr (α : Type) where
  | unassigned
  | assigned (a : α)
  deriving DecidableEq, Repr

/-- State of a GPIO output pin: `level = false` is `IOpin.LOW`,
`level = true` is `IOpin.HIGH`. -/
structure PinState where
  level : Bool
  deriving DecidableEq, Repr

/-- Device handle state: the private fields of the Python `CCS811` object.
`interruptPin` and `wakeupPin` use `Attr` because they are assigned inside
the constructor's `try` block, so a failure there leaves them unassigned;
all other fields are assigned before the `try` block. -/
structure CCS811 where
  mode : ℕ
  measInterval : ℕ
  attempts : ℕ
  stopped : Bool
  tVOC : Option ℕ
  CO2 : Option ℕ
  staleCO2 : Bool
  staletVOC : Bool
  isOpen : Bool
  errorCode : ℕ
  hasTempDevice : Bool
  hasHumidDevice : Bool
  interruptPin : Attr (Option PinState)
  wakeupPin : Attr (Option PinState)
  deriving DecidableEq, Repr

namespace CCS811

/-- Poll operation mode (`__POLL_MODE`). -/
def POLL_MODE : ℕ := 0

/-- Interrupt operation mode (`__INTERRUPT_MODE`). -/
def INTERRUPT_MODE : ℕ := 1

/-- Idle measurement interval selector (`MEAS_INT_IDLE`). -/
def MEAS_INT_IDLE : ℕ := 0

/-- Number of status-read attempts in `dataReady` (`ATTEMPTS`). -/
def ATTEMPTS : ℕ := 5

/-- Expected hardware identity byte (`__HW_ID`). -/
def HW_ID : ℕ := 0x81

/-- Status register address (`__STATUS_REG`). -/
def STATUS_REG : ℕ := 0x00

/-- Measurement mode register address (`__MEAS_MODE_REG`). -/
def MEAS_MODE_REG : ℕ := 0x01

/-- Algorithm result register address (`__ALG_RESULT_DATA_REG`). -/
def ALG_RESULT_DATA_REG : ℕ := 0x02

/-- Environmental data register address (`__ENV_DATA_REG`). -/
def ENV_DATA_REG : ℕ := 0x05

/-- Hardware id register address (`__HW_ID_REG`). -/
def HW_ID_REG : ℕ := 0x20

/-- Error id register address (`__ERROR_ID_REG`). -/
def ERROR_ID_REG : ℕ := 0xE0

/-- App start register address (`__APP_START_REG`). -/
def APP_START_REG : ℕ := 0xF4

/-- Software reset register address (`__SW_RESET_REG`). -/
def SW_RESET_REG : ℕ := 0xFF

/-- Status register app-valid bit position (`__APP_VALID_BIT`). -/
def APP_VALID_BIT : ℕ := 4

/-- Status register data-ready bit position (`__DATA_READY_BIT`). -/
def DATA_READY_BIT : ℕ := 3

/-- Status register error bit position (`__ERROR_BIT`). -/
def ERROR_BIT : ℕ := 0

/-- Drive-mode shift amount in the mode register (`__DRIVE_MODE_BIT`). -/
def DRIVE_MODE_BIT : ℕ := 4

/-- Interrupt-on-data-ready bit position (`__INT_DATARDY_BIT`). -/
def INT_DATARDY_BIT : ℕ := 3

end CCS811

/-- Observable side effects of driver operations on the bus and pins.
Pure delays (`time.sleep`) change no observable state and are omitted. -/
inductive Effect where
  | writeByteReg (reg val : ℕ)
  | writeByte (reg : ℕ)
  | writeBlockReg (reg : ℕ) (data : List ℕ)
  | readBlockReg (reg count : ℕ)
  | pinLevel (level : Bool)
  deriving DecidableEq, Repr

/-- Greedy fractional-bit loop of `__toCCSfloat`: the Python loop runs
`i = 1..9` with `binFrac` halving each iteration and sets bit `9 - i`
whenever the remaining `fraction` is at least the halved weight.  Here
the first argument counts remaining iterations (`n = 10 - i`), so the
bit set in an iteration is bit `n - 1` of `bits`. -/
def ccsLoop : ℕ → ℚ → ℚ → ℕ → ℕ
  | 0, _, _, bits => bits
  | n + 1, fraction, binFrac, bits =>
      let binFrac2 := binFrac / 2
      if binFrac2 ≤ fraction then
        ccsLoop n (fraction - binFrac2) binFrac2 (bits ||| (1 <<< n))
      else
        ccsLoop n fraction binFrac2 bits

/-- Conversion of a real number to the two-byte CCS float
(`CCS811.__toCCSfloat`): clamp to `[0, 127.999]`, split into integer and
fractional parts (Python's `int()` truncates, and the clamped value is
nonnegative, hence `Nat.floor`), place the integer part in the top 7 bits
of the high byte and the greedy 9-bit fraction in the low bit of the high
byte plus the low byte.  Returns `[floatHigh, floatLow]`. -/
def toCCSfloat (number : ℚ) : List ℕ :=
  let num := max 0 (min number 127.999)
  let inum := Nat.floor num
  let fraction := num - inum
  let floatHigh := inum <<< 1
  let bits := ccsLoop 9 fraction 1 0
  let floatHigh2 := floatHigh ||| (bits >>> 8)
  let floatLow := bits &&& 0xFF
  [floatHigh2, floatLow]

/-- Modelled from the spec: the decode direction of the CCS float codec is
absent from the source (compensation is write-only); the spec defines it as
`Decode(high, low) = (high >> 1) + Σ (fractional bits × their binary
weights)`, the most significant fractional bit being the low bit of the
high byte (weight 1/2) followed by the low byte (weights 1/4 .. 1/512). -/
def ccsDecode (high low : ℕ) : ℚ :=
  (high >>> 1 : ℕ) + (((high &&& 1) * 256 + low : ℕ) : ℚ) / 512

/-- Getter for the last CO2 measurement (`CCS811.CO2` property): returns
the stored value and, as a side effect, marks the CO2 measurement stale. -/
def CCS811.CO2get (s : CCS811) : Option ℕ × CCS811 :=
  (s.CO2, { s with staleCO2 := true })

/-- Getter for the last tVOC measurement (`CCS811.tVOC` property): returns
the stored value and, as a side effect, marks the tVOC measurement stale. -/
def CCS811.tVOCget (s : CCS811) : Option ℕ × CCS811 :=
  (s.tVOC, { s with staletVOC := true })

/-- Property `CCS811.staleMeasurements`: true if either measurement is
marked stale (the Python `|` on two booleans is logical or). -/
def CCS811.staleMeasurements (s : CCS811) : Bool :=
  s.staleCO2 || s.staletVOC

/-- Rendering of a stored error code as text (`CCS811.errorText`): the
all-bits-set sentinel short-circuits, otherwise one fixed cause string is
appended per set bit and the trailing comma-space is stripped
(Python `message[:-2]`). -/
def errorTextOf (errorCode : ℕ) : String :=
  if errorCode = 0xFF then "All error code bits set"
  else
    let message := ""
    let message := if errorCode &&& (1 <<< 0) ≠ 0 then
      message ++ "Write request to wrong register received, " else message
    let message := if errorCode &&& (1 <<< 1) ≠ 0 then
      message ++ "Read request for wrong register received, " else message
    let message := if errorCode &&& (1 <<< 2) ≠ 0 then
      message ++ "Invalid MeasMode received, " else message
    let message := if errorCode &&& (1 <<< 3) ≠ 0 then
      message ++ "Sensor resistance reached max resistance, " else message
    let message := if errorCode &&& (1 <<< 4) ≠ 0 then
      message ++ "Heater Current is not in range, " else message
    let message := if errorCode &&& (1 <<< 5) ≠ 0 then
      message ++ "Heater supply voltage is not applied correctly, " else message
    let message := if errorCode &&& (1 <<< 6) ≠ 0 then
      message ++ "Could not read error registers, " else message
    let message := if errorCode &&& (1 <<< 7) ≠ 0 then
      message ++ "Unspecified error, " else message
    message.dropRight 2

/-- Error text of a handle, reading its stored error code. -/
def CCS811.errorText (s : CCS811) : String :=
  errorTextOf s.errorCode

/-- Property `CCS811.errorCondition`.  The whole body is wrapped in
`try/except Exception`, so the outcome of the status-register read and of
the error-id-register read enter as `Except` values and the result is
total: any read failure sets error code bit 6 and reports an error
condition.  A clear error bit resets the code to 0; a set error bit with
error id 0 maps to sentinel bit 7. -/
def CCS811.errorCondition (s : CCS811) (statusRead errorIdRead : Except EKind ℕ) :
    Bool × CCS811 :=
  match statusRead with
  | .error _ => (true, { s with errorCode := 1 <<< 6 })
  | .ok status =>
      if status &&& (1 <<< CCS811.ERROR_BIT) = 0 then
        (false, { s with errorCode := 0 })
      else
        match errorIdRead with
        | .error _ => (true, { s with errorCode := 1 <<< 6 })
        | .ok code =>
            if code = 0 then (true, { s with errorCode := 1 <<< 7 })
            else (true, { s with errorCode := code })

/-- Bus write performed by `CCS811.__setModeReg`: drive-mode bits from the
measurement interval, interrupt flag at the int-data-ready bit. -/
def setModeRegEffect (mode measInterval : ℕ) : Effect :=
  .writeByteReg CCS811.MEAS_MODE_REG
    ((measInterval <<< CCS811.DRIVE_MODE_BIT) ||| (mode <<< CCS811.INT_DATARDY_BIT))

/-- Method `CCS811.readData`.  The 4-byte result block is always read
first; while stopped this is a drain read and the state is untouched.
Otherwise bytes 0-1 become CO2 and bytes 2-3 become tVOC; Python raises
`IndexError` on the first missing byte and the handler resets both values
and marks both stale, so a block shorter than 4 bytes ends in the same
state as a CO2 reading below 400.  Afterwards, if a temperature or
humidity provider is configured, the environmental-compensation block is
written (this write does not touch the stored measurement fields). -/
def CCS811.readData (s : CCS811) (data : List ℕ) (tempKelvin humidity : ℚ) :
    CCS811 × List Effect :=
  let readEff := Effect.readBlockReg CCS811.ALG_RESULT_DATA_REG 4
  if s.stopped then (s, [readEff])
  else
    let s1 :=
      if 2 ≤ data.length then
        let co2 := (data[0]! <<< 8) ||| data[1]!
        if co2 < 400 then
          { s with CO2 := none, tVOC := none, staleCO2 := true, staletVOC := true }
        else if 4 ≤ data.length then
          let tvoc := (data[2]! <<< 8) ||| data[3]!
          { s with CO2 := some co2, tVOC := some tvoc,
                   staleCO2 := false, staletVOC := false }
        else
          { s with CO2 := none, tVOC := none, staleCO2 := true, staletVOC := true }
      else
        { s with CO2 := none, tVOC := none, staleCO2 := true, staletVOC := true }
    let envEffs :=
      if s.hasTempDevice || s.hasHumidDevice then
        let tempPart := if s.hasTempDevice
          then toCCSfloat (tempKelvin - 273.15 + 25.0) else [0x64, 0x00]
        let humidPart := if s.hasHumidDevice
          then toCCSfloat humidity else [0x64, 0x00]
        [Effect.writeBlockReg CCS811.ENV_DATA_REG (tempPart ++ humidPart)]
      else []
    (s1, readEff :: envEffs)

/-- Method `CCS811.sleep`.  The mode register is reprogrammed to
poll-mode/idle BEFORE the wakeup pin is checked, so even the failing call
performs that bus write; then a missing wakeup pin raises `ValueError`
(an unassigned attribute would raise `AttributeError`); otherwise the
wakeup pin is driven high and the handle is marked stopped. -/
def CCS811.sleep (s : CCS811) : Except EKind Unit × CCS811 × List Effect :=
  let modeEff := setModeRegEffect CCS811.POLL_MODE CCS811.MEAS_INT_IDLE
  match s.wakeupPin with
  | .unassigned => (.error .attrError, s, [modeEff])
  | .assigned none => (.error .valueError, s, [modeEff])
  | .assigned (some p) =>
      (.ok (), { s with wakeupPin := .assigned (some { p with level := true }),
                        stopped := true },
       [modeEff, .pinLevel true])

/-- Method `CCS811.wake`: checks the wakeup pin first, then drives it low,
reprograms the configured mode and interval, and marks the handle
running. -/
def CCS811.wake (s : CCS811) : Except EKind Unit × CCS811 × List Effect :=
  match s.wakeupPin with
  | .unassigned => (.error .attrError, s, [])
  | .assigned none => (.error .valueError, s, [])
  | .assigned (some p) =>
      (.ok (), { s with wakeupPin := .assigned (some { p with level := false }),
                        stopped := false },
       [.pinLevel false, setModeRegEffect s.mode s.measInterval])

/-- Method `CCS811.close`.  Reading either pin attribute raises
`AttributeError` if the constructor failed before assigning it.  Pin close
failures and the best-effort reset are swallowed (`except: pass`), the pin
fields are cleared, and an open handle is marked not-open. -/
def CCS811.close (s : CCS811) : Except EKind Unit × CCS811 :=
  match s.interruptPin with
  | .unassigned => (.error .attrError, s)
  | .assigned ip =>
      let s1 := if ip.isSome then { s with interruptPin := .assigned none } else s
      match s1.wakeupPin with
      | .unassigned => (.error .attrError, s1)
      | .assigned wp =>
          let s2 := if wp.isSome then { s1 with wakeupPin := .assigned none } else s1
          if s2.isOpen then (.ok (), { s2 with isOpen := false })
          else (.ok (), s2)

/-- Status-read retry loop of `CCS811.dataReady`: up to `count` attempts,
indexed from `i`; a successful read breaks out with the status byte, an
`OSError` (transport timeout) decrements the budget and retries, any
other exception propagates, and an exhausted budget yields `none`. -/
def readStatusAttempts (resp : ℕ → Except EKind ℕ) : ℕ → ℕ → Except EKind (Option ℕ)
  | 0, _ => .ok none
  | count + 1, i =>
      match resp i with
      | .ok status => .ok (some status)
      | .error .osError => readStatusAttempts resp count (i + 1)
      | .error k => .error k

/-- Property `CCS811.dataReady`: false immediately while stopped;
otherwise the status register is read with the retry loop; exhaustion
yields false; on a successful read, if the data-ready bit is set the
measurements are read (side effect) and true is returned, else false. -/
def CCS811.dataReady (s : CCS811) (resp : ℕ → Except EKind ℕ) (block : List ℕ)
    (tempKelvin humidity : ℚ) : Except EKind Bool × CCS811 × List Effect :=
  if s.stopped then (.ok false, s, [])
  else
    match readStatusAttempts resp s.attempts 0 with
    | .error k => (.error k, s, [])
    | .ok none => (.ok false, s, [])
    | .ok (some status) =>
        if status &&& (1 <<< CCS811.DATA_READY_BIT) ≠ 0 then
          let r := s.readData block tempKelvin humidity
          (.ok true, r.1, r.2)
        else (.ok false, s, [])

/-- Constructor parameters of `CCS811.__init__` that matter for control
flow: which optional collaborators were supplied, the interval selector
and the bus address. -/
structure InitParams where
  measInterval : ℕ
  i2cAddress : ℕ
  hasInterruptPin : Bool
  hasWakeupPin : Bool
  hasTempDevice : Bool
  hasHumidDevice : Bool

/-- Outcomes of the external interactions attempted by the constructor, in
program order.  The best-effort software reset is absent because its
outcome is swallowed by a bare `except`. -/
structure InitOracle where
  interruptAcq : Except EKind Unit
  wakeupAcq : Except EKind Unit
  wakeupSetLow : Except EKind Unit
  hwIdRead : Except EKind ℕ
  statusRead : Except EKind ℕ
  errorIdRead : Except EKind ℕ
  appStartWrite : Except EKind Unit
  errCheck1Status : Except EKind ℕ
  errCheck1ErrId : Except EKind ℕ
  modeWrite : Except EKind Unit
  errCheck2Status : Except EKind ℕ
  errCheck2ErrId : Except EKind ℕ
  fakeBlockRead : Except EKind (List ℕ)

/-- Handle fields as assigned by the constructor before its `try` block:
both pin attributes are still unassigned. -/
def initFields (p : InitParams) : CCS811 :=
  { mode := if p.hasInterruptPin then CCS811.INTERRUPT_MODE else CCS811.POLL_MODE
    measInterval := p.measInterval
    attempts := CCS811.ATTEMPTS
    stopped := true
    tVOC := none
    CO2 := none
    staleCO2 := true
    staletVOC := true
    isOpen := false
    errorCode := 0
    hasTempDevice := p.hasTempDevice
    hasHumidDevice := p.hasHumidDevice
    interruptPin := .unassigned
    wakeupPin := .unassigned }

/-- Pin-acquisition phase of the constructor's `try` block: acquire the
interrupt pin (if requested), then the wakeup pin (if requested) and
drive it low.  On failure the error and the object state at that point
are returned. -/
def initPins (p : InitParams) (o : InitOracle) : Except (EKind × CCS811) CCS811 :=
  let s0 := initFields p
  let step1 : Except (EKind × CCS811) CCS811 :=
    if p.hasInterruptPin then
      match o.interruptAcq with
      | .error k => .error (k, s0)
      | .ok _ => .ok { s0 with interruptPin := .assigned (some ⟨false⟩) }
    else .ok { s0 with interruptPin := .assigned none }
  match step1 with
  | .error e => .error e
  | .ok s1 =>
      if p.hasWakeupPin then
        match o.wakeupAcq with
        | .error k => .error (k, s1)
        | .ok _ =>
            let s2 := { s1 with wakeupPin := .assigned (some ⟨false⟩) }
            match o.wakeupSetLow with
            | .error k => .error (k, s2)
            | .ok _ => .ok s2
      else .ok { s1 with wakeupPin := .assigned none }

/-- Chip-initialization phase of the constructor's `try` block (after the
ignored best-effort reset): identity check, mark open, status and error
checks, app start, error re-check, mode programming, final error
re-check. -/
def initChip (o : InitOracle) (s : CCS811) : Except (EKind × CCS811) CCS811 :=
  match o.hwIdRead with
  | .error k => .error (k, s)
  | .ok v =>
      if v ≠ CCS811.HW_ID then .error (.valueError, s)
      else
        let s3 := { s with isOpen := true }
        match o.statusRead with
        | .error k => .error (k, s3)
        | .ok status =>
            if status &&& (1 <<< CCS811.ERROR_BIT) ≠ 0 then
              match o.errorIdRead with
              | .error k => .error (k, s3)
              | .ok code => .error (.valueError, { s3 with errorCode := code })
            else if status &&& (1 <<< CCS811.APP_VALID_BIT) = 0 then
              .error (.valueError, s3)
            else
              match o.appStartWrite with
              | .error k => .error (k, s3)
              | .ok _ =>
                  let r1 := s3.errorCondition o.errCheck1Status o.errCheck1ErrId
                  if r1.1 then .error (.valueError, r1.2)
                  else
                    match o.modeWrite with
                    | .error k => .error (k, r1.2)
                    | .ok _ =>
                        let r2 := r1.2.errorCondition o.errCheck2Status o.errCheck2ErrId
                        if r2.1 then .error (.valueError, r2.2)
                        else .ok r2.2

/-- Exception handler of the constructor: only `ValueError` and
`GPIOError` are caught; for those, `close()` runs before the error is
re-raised, and an exception escaping `close()` replaces the original
one.  All other exception kinds propagate with no cleanup at all. -/
def initHandler (k : EKind) (s : CCS811) : Except EKind Unit × CCS811 :=
  if k = .valueError ∨ k = .gpioError then
    match s.close with
    | (.ok _, s2) => (.error k, s2)
    | (.error k2, s2) => (.error k2, s2)
  else (.error k, s)

/-- Constructor `CCS811.__init__`: parameter validation (raised before any
field is assigned), then the `try` block (pins, then chip init) guarded by
`initHandler`, then — outside any handler — the fake drain read in
interrupt mode and the final transition to running. -/
def ccsInit (p : InitParams) (o : InitOracle) : Except EKind Unit × CCS811 :=
  if ¬(p.i2cAddress = 0x5A ∨ p.i2cAddress = 0x5B) then
    (.error .valueError, initFields p)
  else if p.measInterval < 1 ∨ 4 < p.measInterval then
    (.error .valueError, initFields p)
  else
    let body : Except (EKind × CCS811) CCS811 :=
      match initPins p o with
      | .error e => .error e
      | .ok s => initChip o s
    match body with
    | .error (k, sErr) => initHandler k sErr
    | .ok sOk =>
        if p.hasInterruptPin then
          match o.fakeBlockRead with
          | .error k => (.error k, sOk)
          | .ok data =>
              let r := sOk.readData data 0 0
              (.ok (), { r.1 with stopped := false })
        else (.ok (), { sOk with stopped := false })

/-- Reachable handle states: those returned by a successful construction,
closed under every operation of the driver (with arbitrary collaborator
behavior). -/
inductive Reachable : CCS811 → Prop where
  | init (p : InitParams) (o : InitOracle) (s : CCS811) :
      ccsInit p o = (.ok (), s) → Reachable s
  | read (s : CCS811) (data : List ℕ) (t h : ℚ) :
      Reachable s → Reachable (s.readData data t h).1
  | co2 (s : CCS811) : Reachable s → Reachable (s.CO2get).2
  | tvoc (s : CCS811) : Reachable s → Reachable (s.tVOCget).2
  | sleepStep (s : CCS811) : Reachable s → Reachable (s.sleep).2.1
  | wakeStep (s : CCS811) : Reachable s → Reachable (s.wake).2.1
  | closeStep (s : CCS811) : Reachable s → Reachable (s.close).2
  | ready (s : CCS811) (resp : ℕ → Except EKind ℕ) (block : List ℕ) (t h : ℚ) :
      Reachable s → Reachable (s.dataReady resp block t h).2.1
  | errCond (s : CCS811) (sr er : Except EKind ℕ) :
      Reachable s → Reachable (s.errorCondition sr er).2

/-- Measurement validity invariant: tVOC is present only if CO2 is present
and at least 400. -/
def MeasInvariant (s : CCS811) : Prop :=
  ∀ v, s.tVOC = some v → ∃ c, s.CO2 = some c ∧ 400 ≤ c

/-- Demonstration parameters: poll mode, no optional pins or providers,
default address, 1-second interval. -/
def demoParams : InitParams :=
  { measInterval := 1, i2cAddress := 0x5B,
    hasInterruptPin := false, hasWakeupPin := false,
    hasTempDevice := false, hasHumidDevice := false }

/-- Demonstration parameters with a wakeup pin configured. -/
def demoParamsWake : InitParams :=
  { demoParams with hasWakeupPin := true }

/-- Demonstration parameters with an interrupt pin configured. -/
def demoParamsIntr : InitParams :=
  { demoParams with hasInterruptPin := true }

/-- Oracle in which every external interaction succeeds with benign
values: correct hardware id, status byte with app-valid set and error
clear. -/
def demoOracle : InitOracle :=
  { interruptAcq := .ok (), wakeupAcq := .ok (), wakeupSetLow := .ok ()
    hwIdRead := .ok 0x81, statusRead := .ok 0x10, errorIdRead := .ok 0
    appStartWrite := .ok (), errCheck1Status := .ok 0x90, errCheck1ErrId := .ok 0
    modeWrite := .ok (), errCheck2Status := .ok 0x90, errCheck2ErrId := .ok 0
    fakeBlockRead := .ok [0, 0, 0, 0] }

/-- Demonstration handle in the running poll-mode configuration (no pins
acquired, measurements begun). -/
def runningState : CCS811 :=
  { initFields demoParams with
      interruptPin := .assigned none, wakeupPin := .assigned none,
      isOpen := true, stopped := false }

/-- Handle state left behind when the status-register read of the
constructor fails with a transport error: wakeup pin still acquired, handle
still marked open. -/
def leakedState : CCS811 :=
  { initFields demoParamsWake with
      interruptPin := .assigned none, wakeupPin := .assigned (some ⟨false⟩),
      isOpen := true }

/-- Oracle in which the chip answers the identity read with a wrong id,
making construction fail with ValueError at the identity check. -/
def oracleBadId : InitOracle :=
  { demoOracle with hwIdRead := .ok 0 }

/-- Handle state after the constructor cleaned up: both pins released and
cleared, handle not open. -/
def cleanedState : CCS811 :=
  { initFields demoParams with
      interruptPin := .assigned none, wakeupPin := .assigned none }

/-- Demonstration handle in the running configuration with a wakeup pin
acquired and low. -/
def runningStateWake : CCS811 :=
  { initFields demoParamsWake with
      interruptPin := .assigned none, wakeupPin := .assigned (some ⟨false⟩),
      isOpen := true, stopped := false }

theorem lor_two_pow_mul : ∀ (n B : ℕ), (B * 2^(n+1)) ||| (2^n) = B * 2^(n+1) + 2^n := by
  intro n
  induction n with
  | zero =>
    intro B
    have h := Nat.lor_bit false B true 0
    simp [Nat.bit] at h
    simpa [Nat.mul_comm, Nat.pow_succ] using h
  | succ n ih =>
    intro B
    have h := Nat.lor_bit false (B * 2^(n+1)) false (2^n)
    simp [Nat.bit] at h
    have e1 : B * 2^(n+1+1) = 2 * (B * 2^(n+1)) := by ring
    have e2 : (2:ℕ)^(n+1) = 2 * 2^n := by ring
    calc B * 2^(n+1+1) ||| 2^(n+1)
        = 2 * (B * 2^(n+1)) ||| 2 * 2^n := by rw [← e1, ← e2]
      _ = 2 * (B * 2^(n+1) ||| 2^n) := h
      _ = 2 * (B * 2^(n+1) + 2^n) := by rw [ih B]
      _ = B * 2^(n+1+1) + 2^(n+1) := by ring

theorem mul_two_lor (a r : ℕ) (h : r ≤ 1) : (a * 2) ||| r = a * 2 + r := by
  match r, h with
  | 0, _ => simp [Nat.or_zero]
  | 1, _ => simpa using lor_two_pow_mul 0 a

theorem ccsLoop_lt : ∀ (n : ℕ) (f b : ℚ) (B : ℕ),
    ccsLoop n f b (B * 2^n) < (B + 1) * 2^n := by
  intro n
  induction n with
  | zero => intro f b B; simp [ccsLoop]
  | succ n ih =>
    intro f b B
    simp only [ccsLoop]
    split
    · have hb : B * 2^(n+1) ||| 1 <<< n = (2*B+1) * 2^n := by
        rw [Nat.one_shiftLeft, lor_two_pow_mul n B]; ring
      rw [hb]
      have := ih (f - b/2) (b/2) (2*B+1)
      calc ccsLoop n (f - b/2) (b/2) ((2*B+1) * 2^n) < (2*B+1+1) * 2^n := this
        _ ≤ (B+1) * 2^(n+1) := by ring_nf; omega
    · have hb : B * 2^(n+1) = (2*B) * 2^n := by ring
      rw [hb]
      have := ih f (b/2) (2*B)
      calc ccsLoop n f (b/2) ((2*B) * 2^n) < (2*B+1) * 2^n := this
        _ ≤ (B+1) * 2^(n+1) := by ring_nf; omega

theorem ccsLoop_exact : ∀ (n : ℕ) (m B : ℕ), m < 2^n →
    ccsLoop n ((m : ℚ)/512) ((2^n : ℚ)/512) (B * 2^n) = B * 2^n + m := by
  intro n
  induction n with
  | zero =>
    intro m B hm
    interval_cases m
    simp [ccsLoop]
  | succ n ih =>
    intro m B hm
    simp only [ccsLoop]
    have hbin : ((2:ℚ)^(n+1))/512/2 = (2^n : ℚ)/512 := by ring
    by_cases hc : 2^n ≤ m
    · have hle : ((2:ℚ)^(n+1))/512/2 ≤ (m:ℚ)/512 := by
        rw [hbin]
        apply div_le_div_of_nonneg_right ?_ (by norm_num)
        · exact_mod_cast hc
      rw [if_pos hle]
      have hsub : (m:ℚ)/512 - (2:ℚ)^(n+1)/512/2 = ((m - 2^n : ℕ) : ℚ)/512 := by
        rw [hbin]
        push_cast [hc]
        ring
      have hb : B * 2^(n+1) ||| 1 <<< n = (2*B+1) * 2^n := by
        rw [Nat.one_shiftLeft, lor_two_pow_mul n B]; ring
      rw [hsub, hbin, hb]
      have hm' : m - 2^n < 2^n := by
        have : (2:ℕ)^(n+1) = 2^n + 2^n := by ring
        omega
      rw [ih (m - 2^n) (2*B+1) hm']
      zify [hc]
      ring
    · push_neg at hc
      have hlt : (m:ℚ)/512 < ((2:ℚ)^(n+1))/512/2 := by
        rw [hbin]
        apply div_lt_div_of_pos_right ?_ (by norm_num)
        · exact_mod_cast hc
      rw [if_neg (not_le.mpr hlt)]
      have hb : B * 2^(n+1) = (2*B) * 2^n := by ring
      rw [hbin, hb, ih m (2*B) hc]

theorem encode_high (inum bits : ℕ) (hb : bits < 512) :
    (inum <<< 1) ||| (bits >>> 8) = inum * 2 + bits / 256 := by
  rw [Nat.shiftLeft_eq, Nat.shiftRight_eq_div_pow]
  have h1 : (2:ℕ)^1 = 2 := rfl
  have h8 : (2:ℕ)^8 = 256 := by norm_num
  rw [h1, h8, mul_two_lor _ _ (by omega)]

theorem encode_low (bits : ℕ) : bits &&& 0xFF = bits % 256 := by
  have h255 : (0xFF : ℕ) = 2^8 - 1 := by norm_num
  rw [h255, Nat.and_pow_two_sub_one_eq_mod]

theorem toCCSfloat_shape (x : ℚ) :
    ∃ q m : ℕ, q = Nat.floor (max 0 (min x 127.999)) ∧
      m = ccsLoop 9 (max 0 (min x 127.999) - (q:ℚ)) 1 0 ∧ m < 512 ∧
      toCCSfloat x = [q * 2 + m / 256, m % 256] := by
  have hm : ccsLoop 9 (max 0 (min x 127.999) - (Nat.floor (max 0 (min x 127.999)) : ℚ)) 1 0 < 512 := by
    have h := ccsLoop_lt 9 (max 0 (min x 127.999) - (Nat.floor (max 0 (min x 127.999)) : ℚ)) 1 0
    simpa using h
  refine ⟨Nat.floor (max 0 (min x 127.999)), ccsLoop 9 _ 1 0, rfl, rfl, hm, ?_⟩
  simp only [toCCSfloat]
  rw [encode_high _ _ hm, encode_low]

/-- C3: round trip of the fixed-point codec — for every `x` in
`[0, 127.999]` that is a multiple of `1/512`, decoding the encoder's two
bytes recovers `x` to within `1/512`; and encoding clamps: every negative
input encodes like `0`, every input above `127.999` encodes like
`127.999`. -/
theorem C3_codec_roundtrip_clamp :
    (∀ x : ℚ, (∃ k : ℕ, x = (k:ℚ)/512) → 0 ≤ x → x ≤ 127.999 →
      ∃ hi lo : ℕ, toCCSfloat x = [hi, lo] ∧ |ccsDecode hi lo - x| ≤ 1/512) ∧
    (∀ x : ℚ, x < 0 → toCCSfloat x = toCCSfloat 0) ∧
    (∀ x : ℚ, 127.999 < x → toCCSfloat x = toCCSfloat 127.999) := by
  refine ⟨?_, ?_, ?_⟩
  · rintro x ⟨k, rfl⟩ h0 h1
    obtain ⟨q, m, hq, hmdef, hmlt, hshape⟩ := toCCSfloat_shape ((k:ℚ)/512)
    have hnum : max 0 (min ((k:ℚ)/512) 127.999) = (k:ℚ)/512 := by
      rw [min_eq_left h1, max_eq_right h0]
    have hdm : (512:ℚ) * ((k/512 : ℕ):ℚ) + ((k % 512 : ℕ):ℚ) = (k:ℚ) := by
      exact_mod_cast Nat.div_add_mod k 512
    have hqval : q = k / 512 := by
      rw [hq, hnum]
      rw [show ((512:ℚ)) = ((512:ℕ):ℚ) by norm_num, Nat.floor_div_nat, Nat.floor_natCast]
    have hfrac : max 0 (min ((k:ℚ)/512) 127.999) - (q:ℚ) = ((k % 512 : ℕ):ℚ)/512 := by
      rw [hnum, hqval]
      field_simp
      linarith
    have hmval : m = k % 512 := by
      rw [hmdef, hfrac]
      have h := ccsLoop_exact 9 (k % 512) 0 (Nat.mod_lt k (by norm_num))
      norm_num at h
      exact h
    refine ⟨q*2 + m/256, m % 256, hshape, ?_⟩
    have hhi2 : (q*2 + m/256) >>> 1 = q := by
      rw [Nat.shiftRight_eq_div_pow]
      norm_num
      omega
    have hand : (q*2 + m/256) &&& 1 = m/256 := by
      rw [Nat.and_one_is_mod]
      omega
    have hm256 : (m/256)*256 + m % 256 = m := by omega
    simp only [ccsDecode, hhi2, hand, hm256]
    have heq : (q:ℚ) + (m:ℚ)/512 = (k:ℚ)/512 := by
      rw [hqval, hmval]
      field_simp
      linarith
    rw [heq]
    simp
  · intro x hx
    have h1 : max 0 (min x 127.999) = 0 := by
      rw [max_eq_left]
      exact le_trans (min_le_left _ _) hx.le
    have h2 : max 0 (min (0:ℚ) 127.999) = 0 := by norm_num
    simp only [toCCSfloat, h1, h2]
  · intro x hx
    have h1 : max 0 (min x 127.999) = (127.999:ℚ) := by
      rw [min_eq_right hx.le]
      norm_num
    have h2 : max 0 (min (127.999:ℚ) 127.999) = (127.999:ℚ) := by norm_num
    simp only [toCCSfloat, h1, h2]

theorem C3_codec_witness :
    (∃ k : ℕ, (1:ℚ)/512 = (k:ℚ)/512) ∧ (0:ℚ) ≤ 1/512 ∧ (1:ℚ)/512 ≤ 127.999 ∧
    (∃ hi lo : ℕ, toCCSfloat (1/512) = [hi, lo] ∧ |ccsDecode hi lo - 1/512| ≤ 1/512) :=
  ⟨⟨1, by norm_num⟩, by norm_num, by norm_num,
    C3_codec_roundtrip_clamp.1 (1/512) ⟨1, by norm_num⟩ (by norm_num) (by norm_num)⟩

/-- C10: for every real input, the encoder returns exactly two integers,
each at most 255, so every environmental-compensation byte written to the
bus is a valid byte. -/
theorem C10_encoder_byte_range (x : ℚ) :
    (toCCSfloat x).length = 2 ∧ (toCCSfloat x)[0]! ≤ 255 ∧ (toCCSfloat x)[1]! ≤ 255 := by
  obtain ⟨q, m, hq, hmdef, hmlt, hshape⟩ := toCCSfloat_shape x
  have hnum0 : (0:ℚ) ≤ max 0 (min x 127.999) := le_max_left _ _
  have hnum1 : max 0 (min x 127.999) < 128 := by
    apply max_lt (by norm_num)
    exact lt_of_le_of_lt (min_le_right _ _) (by norm_num)
  have hqlt : q < 128 := by
    rw [hq]
    exact (Nat.floor_lt hnum0).mpr (by exact_mod_cast hnum1)
  rw [hshape]
  refine ⟨rfl, ?_, ?_⟩ <;> simp <;> omega

/-- C8: each measurement getter marks only its own measurement stale and
leaves the other staleness flag and both stored values untouched, returns
the stored value, and staleMeasurements is the disjunction of the two
staleness flags. -/
theorem C8_getter_staleness_frame (s : CCS811) :
    (s.CO2get).1 = s.CO2 ∧
    (s.CO2get).2 = { s with staleCO2 := true } ∧
    (s.CO2get).2.staletVOC = s.staletVOC ∧
    (s.CO2get).2.CO2 = s.CO2 ∧
    (s.CO2get).2.tVOC = s.tVOC ∧
    (s.CO2get).2.staleCO2 = true ∧
    (s.tVOCget).1 = s.tVOC ∧
    (s.tVOCget).2 = { s with staletVOC := true } ∧
    (s.tVOCget).2.staleCO2 = s.staleCO2 ∧
    (s.tVOCget).2.CO2 = s.CO2 ∧
    (s.tVOCget).2.tVOC = s.tVOC ∧
    (s.tVOCget).2.staletVOC = true ∧
    s.staleMeasurements = (s.staleCO2 || s.staletVOC) :=
  ⟨rfl, rfl, rfl, rfl, rfl, rfl, rfl, rfl, rfl, rfl, rfl, rfl, rfl⟩

/-- C4 fails as stated: with no wakeup pin configured, sleep() still
writes the mode register (reprogramming it to poll/idle) before raising,
on the concrete pinless poll-mode handle below. -/
theorem C4_sleep_writes_before_error :
    (runningState.sleep).1 = .error .valueError ∧
    (runningState.sleep).2.2 = [Effect.writeByteReg CCS811.MEAS_MODE_REG 0] ∧
    (runningState.sleep).2.2 ≠ [] := by
  refine ⟨rfl, rfl, by decide⟩

/-- C4 amended: with no wakeup pin, sleep() and wake() both fail with
ValueError and leave the handle state unchanged, but sleep() performs the
poll/idle mode-register write before raising while wake() performs no
write; with a wakeup pin, sleep() writes poll/idle mode, drives the pin
high and marks the handle stopped, and wake() drives the pin low,
reprograms the configured mode and interval and marks the handle
running. -/
theorem C4_sleep_wake_behavior (s : CCS811) :
    (s.wakeupPin = .assigned none →
      (s.sleep).1 = .error .valueError ∧ (s.sleep).2.1 = s ∧
      (s.sleep).2.2 = [setModeRegEffect CCS811.POLL_MODE CCS811.MEAS_INT_IDLE] ∧
      (s.wake).1 = .error .valueError ∧ (s.wake).2.1 = s ∧ (s.wake).2.2 = []) ∧
    (∀ p, s.wakeupPin = .assigned (some p) →
      (s.sleep).1 = .ok () ∧
      (s.sleep).2.1 = { s with wakeupPin := .assigned (some ⟨true⟩), stopped := true } ∧
      (s.sleep).2.2 = [setModeRegEffect CCS811.POLL_MODE CCS811.MEAS_INT_IDLE,
                       .pinLevel true] ∧
      (s.wake).1 = .ok () ∧
      (s.wake).2.1 = { s with wakeupPin := .assigned (some ⟨false⟩), stopped := false } ∧
      (s.wake).2.2 = [.pinLevel false, setModeRegEffect s.mode s.measInterval]) := by
  constructor
  · intro hw
    unfold CCS811.sleep CCS811.wake
    rw [hw]
    exact ⟨rfl, rfl, rfl, rfl, rfl, rfl⟩
  · intro p hw
    unfold CCS811.sleep CCS811.wake
    rw [hw]
    exact ⟨rfl, rfl, rfl, rfl, rfl, rfl⟩

theorem C4_sleep_wake_witness :
    runningStateWake.wakeupPin = .assigned (some ⟨false⟩) ∧
    ((runningStateWake.sleep).1 = .ok () ∧
     (runningStateWake.sleep).2.1
       = { runningStateWake with wakeupPin := .assigned (some ⟨true⟩), stopped := true } ∧
     (runningStateWake.sleep).2.2
       = [setModeRegEffect CCS811.POLL_MODE CCS811.MEAS_INT_IDLE, .pinLevel true] ∧
     (runningStateWake.wake).1 = .ok () ∧
     (runningStateWake.wake).2.1
       = { runningStateWake with wakeupPin := .assigned (some ⟨false⟩), stopped := false } ∧
     (runningStateWake.wake).2.2
       = [.pinLevel false, setModeRegEffect runningStateWake.mode runningStateWake.measInterval]) :=
  ⟨rfl, (C4_sleep_wake_behavior runningStateWake).2 ⟨false⟩ rfl⟩

/-- C6: errorCondition is total over every outcome of the two register
reads (the Python body is wrapped in a catch-all `try/except`): a clear
error bit resets the stored code to 0 and reports false; a set error bit
with a nonzero error id stores it and reports true; an error id of 0 is
mapped to sentinel bit 7, for which errorText renders the
unspecified-error message rather than an empty string; and a transport
failure of either read stores bit 6 (could not read error registers) and
reports true. -/
theorem C6_errorCondition_total (s : CCS811) (sr er : Except EKind ℕ) :
    (∀ st, sr = .ok st → st &&& (1 <<< CCS811.ERROR_BIT) = 0 →
      s.errorCondition sr er = (false, { s with errorCode := 0 })) ∧
    (∀ st c, sr = .ok st → st &&& (1 <<< CCS811.ERROR_BIT) ≠ 0 → er = .ok c → c ≠ 0 →
      s.errorCondition sr er = (true, { s with errorCode := c })) ∧
    (∀ st, sr = .ok st → st &&& (1 <<< CCS811.ERROR_BIT) ≠ 0 → er = .ok 0 →
      s.errorCondition sr er = (true, { s with errorCode := 1 <<< 7 }) ∧
      CCS811.errorText { s with errorCode := 1 <<< 7 } = "Unspecified error" ∧
      "Unspecified error" ≠ "") ∧
    (∀ k, sr = .error k →
      s.errorCondition sr er = (true, { s with errorCode := 1 <<< 6 })) ∧
    (∀ st k, sr = .ok st → st &&& (1 <<< CCS811.ERROR_BIT) ≠ 0 → er = .error k →
      s.errorCondition sr er = (true, { s with errorCode := 1 <<< 6 })) := by
  refine ⟨?_, ?_, ?_, ?_, ?_⟩
  · rintro st rfl hbit
    simp [CCS811.errorCondition, hbit]
  · rintro st c rfl hbit rfl hc
    simp [CCS811.errorCondition, hbit, hc]
  · rintro st rfl hbit rfl
    refine ⟨by simp [CCS811.errorCondition, hbit], ?_, by decide⟩
    show errorTextOf (1 <<< 7) = "Unspecified error"
    decide
  · rintro k rfl
    rfl
  · rintro st k rfl hbit rfl
    simp [CCS811.errorCondition, hbit]

theorem C6_errorCondition_witness :
    ((Except.ok 1 : Except EKind ℕ) = .ok 1) ∧ ((1:ℕ) &&& (1 <<< CCS811.ERROR_BIT) ≠ 0) ∧
    ((Except.ok 0 : Except EKind ℕ) = .ok 0) ∧
    ((initFields demoParams).errorCondition (.ok 1) (.ok 0)
       = (true, { initFields demoParams with errorCode := 1 <<< 7 }) ∧
     CCS811.errorText { initFields demoParams with errorCode := 1 <<< 7 }
       = "Unspecified error" ∧ "Unspecified error" ≠ "") :=
  ⟨rfl, by decide,
   rfl, (C6_errorCondition_total (initFields demoParams) (.ok 1) (.ok 0)).2.2.1
          1 rfl (by decide) rfl⟩

/-- C1: interpretation of the 4-byte result block by readData while
running — bytes 0-1 are CO2 big-endian and bytes 2-3 tVOC big-endian; a
CO2 reading below 400 clears both values and marks both stale; a valid
reading stores both and marks both fresh; a block shorter than 4 bytes
ends in exactly the invalid-case state, with no error (the model is
total: the Python IndexError is caught inside readData). -/
theorem C1_readData_interpretation (s : CCS811) (data : List ℕ) (t h : ℚ)
    (hstop : s.stopped = false) :
    (((data[0]! <<< 8) ||| data[1]! < 400 ∨ data.length < 4) →
      (s.readData data t h).1.CO2 = none ∧ (s.readData data t h).1.tVOC = none ∧
      (s.readData data t h).1.staleCO2 = true ∧ (s.readData data t h).1.staletVOC = true) ∧
    (4 ≤ data.length → 400 ≤ (data[0]! <<< 8) ||| data[1]! →
      (s.readData data t h).1.CO2 = some ((data[0]! <<< 8) ||| data[1]!) ∧
      (s.readData data t h).1.tVOC = some ((data[2]! <<< 8) ||| data[3]!) ∧
      (s.readData data t h).1.staleCO2 = false ∧
      (s.readData data t h).1.staletVOC = false) := by
  constructor
  · intro hcase
    unfold CCS811.readData
    rw [hstop]
    by_cases h2 : 2 ≤ data.length
    · rcases hcase with hlo | hshort
      · simp [h2, hlo]
      · by_cases hlo : (data[0]! <<< 8) ||| data[1]! < 400
        · simp [h2, hlo]
        · have h4 : ¬ 4 ≤ data.length := by omega
          simp [h2, hlo, h4]
    · simp [h2]
  · intro h4 hge
    unfold CCS811.readData
    rw [hstop]
    have h2 : 2 ≤ data.length := by omega
    have hlo : ¬((data[0]! <<< 8) ||| data[1]! < 400) := by omega
    simp [h2, hlo, h4]

theorem C1_readData_witness :
    runningState.stopped = false ∧
    (4 ≤ ([1, 0x90, 0, 0x64] : List ℕ).length ∧
     (runningState.readData [1, 0x90, 0, 0x64] 0 0).1.CO2 = some 400 ∧
     (runningState.readData [1, 0x90, 0, 0x64] 0 0).1.tVOC = some 100 ∧
     (runningState.readData [1, 0x90, 0, 0x64] 0 0).1.staleCO2 = false ∧
     (runningState.readData [1, 0x90, 0, 0x64] 0 0).1.staletVOC = false) ∧
    ((runningState.readData [1, 0x8F, 0, 0] 0 0).1.CO2 = none ∧
     (runningState.readData [1, 0x8F, 0, 0] 0 0).1.tVOC = none ∧
     (runningState.readData [1, 0x8F, 0, 0] 0 0).1.staleCO2 = true ∧
     (runningState.readData [1, 0x8F, 0, 0] 0 0).1.staletVOC = true) := by
  refine ⟨rfl, ⟨by decide, ?_⟩, ?_⟩
  · have h := (C1_readData_interpretation runningState [1, 0x90, 0, 0x64] 0 0 rfl).2
      (by decide) (by decide)
    simpa using h
  · have h := (C1_readData_interpretation runningState [1, 0x8F, 0, 0] 0 0 rfl).1
      (Or.inl (by decide))
    simpa using h

theorem readStatusAttempts_timeout (resp : ℕ → Except EKind ℕ) :
    ∀ count i, (∀ j, j < count → resp (i + j) = .error .osError) →
      readStatusAttempts resp count i = .ok none := by
  intro count
  induction count with
  | zero => intro i _; rfl
  | succ c ih =>
    intro i hall
    have h0 : resp i = .error .osError := by simpa using hall 0 (by omega)
    simp only [readStatusAttempts, h0]
    refine ih (i+1) (fun j hj => ?_)
    have e : i + 1 + j = i + (j + 1) := by omega
    rw [e]
    exact hall (j+1) (by omega)

theorem readStatusAttempts_success (resp : ℕ → Except EKind ℕ) :
    ∀ j count i status, j < count → (∀ l, l < j → resp (i + l) = .error .osError) →
      resp (i + j) = .ok status →
      readStatusAttempts resp count i = .ok (some status) := by
  intro j
  induction j with
  | zero =>
    intro count i status hlt hpre hok
    match count, hlt with
    | c+1, _ =>
      have h0 : resp i = .ok status := by simpa using hok
      simp only [readStatusAttempts, h0]
  | succ j ih =>
    intro count i status hlt hpre hok
    match count, hlt with
    | c+1, hlt =>
      have h0 : resp i = .error .osError := by simpa using hpre 0 (by omega)
      simp only [readStatusAttempts, h0]
      refine ih c (i+1) status (by omega) (fun l hl => ?_) ?_
      · have e : i + 1 + l = i + (l + 1) := by omega
        rw [e]
        exact hpre (l+1) (by omega)
      · have e : i + 1 + j = i + (j + 1) := by omega
        rw [e]
        exact hok

/-- C7: dataReady returns false immediately while stopped; otherwise the
status register is read with up to 5 attempts, retrying only on a
transport timeout (`OSError`): exhausting all 5 attempts yields false, a
non-timeout transport error propagates without retry, and a successful
status read triggers the data read and returns true exactly when
data-ready bit 3 is set. -/
theorem C7_dataReady_retry (s : CCS811) (resp : ℕ → Except EKind ℕ)
    (block : List ℕ) (t h : ℚ) :
    (s.stopped = true → s.dataReady resp block t h = (.ok false, s, [])) ∧
    (s.stopped = false → s.attempts = 5 →
      ((∀ i, i < 5 → resp i = .error .osError) →
        s.dataReady resp block t h = (.ok false, s, [])) ∧
      (∀ j status, j < 5 → (∀ i, i < j → resp i = .error .osError) →
        resp j = .ok status →
        s.dataReady resp block t h =
          (if status &&& (1 <<< CCS811.DATA_READY_BIT) ≠ 0
           then (.ok true, (s.readData block t h).1, (s.readData block t h).2)
           else (.ok false, s, []))) ∧
      (∀ k, resp 0 = .error k → k ≠ .osError →
        s.dataReady resp block t h = (.error k, s, []))) := by
  constructor
  · intro hs
    unfold CCS811.dataReady
    rw [hs]
    rfl
  · intro hs ha
    refine ⟨?_, ?_, ?_⟩
    · intro hall
      unfold CCS811.dataReady
      rw [hs, ha]
      rw [readStatusAttempts_timeout resp 5 0 (fun j hj => by simpa using hall j hj)]
      rfl
    · intro j status hj hpre hok
      unfold CCS811.dataReady
      rw [hs, ha]
      rw [readStatusAttempts_success resp j 5 0 status hj
            (fun l hl => by simpa using hpre l hl) (by simpa using hok)]
      rfl
    · intro k hk hkno
      unfold CCS811.dataReady
      rw [hs, ha]
      have hrs : readStatusAttempts resp 5 0 = .error k := by
        cases k <;> simp_all [readStatusAttempts]
      rw [hrs]
      rfl

theorem C7_dataReady_witness :
    runningState.stopped = false ∧ runningState.attempts = 5 ∧
    (0:ℕ) < 5 ∧ ((fun _ => (.ok 8 : Except EKind ℕ)) 0 = .ok 8) ∧
    runningState.dataReady (fun _ => .ok 8) [1, 0x90, 0, 0x64] 0 0 =
      (.ok true, (runningState.readData [1, 0x90, 0, 0x64] 0 0).1,
       (runningState.readData [1, 0x90, 0, 0x64] 0 0).2) := by
  refine ⟨rfl, rfl, by omega, rfl, ?_⟩
  have h := ((C7_dataReady_retry runningState (fun _ => .ok 8)
      [1, 0x90, 0, 0x64] 0 0).2 rfl rfl).2.1 0 8 (by omega)
      (fun i hi => absurd hi (by omega)) rfl
  simpa using h

/-- C9 fails on the code: if the interrupt-pin acquisition raises inside
the constructor's `try` block, neither pin attribute was ever assigned, so
the cleanup `close()` itself raises `AttributeError` — both from the
constructor's handler (masking the original error) and on any direct call
on that partially constructed handle. -/
theorem C9_close_after_partial_construction :
    ccsInit demoParamsIntr { demoOracle with interruptAcq := .error .gpioError }
      = (.error .attrError, initFields demoParamsIntr) ∧
    (initFields demoParamsIntr).close = (.error .attrError, initFields demoParamsIntr) ∧
    (initFields demoParamsIntr).interruptPin = .unassigned := by
  exact ⟨rfl, rfl, rfl⟩

/-- C2 fails as stated: a transport-level failure (`OSError`) of the
status-register read is not in the constructor's caught set
`(ValueError, GPIOError)`, so it propagates with NO cleanup — the wakeup
pin stays acquired and the handle stays marked open. -/
theorem C2_transport_failure_skips_cleanup :
    ccsInit demoParamsWake { demoOracle with statusRead := .error .osError }
      = (.error .osError, leakedState) ∧
    leakedState.wakeupPin ≠ .assigned none ∧
    leakedState.isOpen = true := by
  refine ⟨rfl, by decide, rfl⟩

theorem close_assigned (s : CCS811) (ip wp : Option PinState)
    (hi : s.interruptPin = .assigned ip) (hw : s.wakeupPin = .assigned wp) :
    s.close = (.ok (), { s with interruptPin := .assigned none,
                                wakeupPin := .assigned none, isOpen := false }) := by
  obtain ⟨f1, f2, f3, f4, f5, f6, f7, f8, f9, f10, f11, f12, f13, f14⟩ := s
  simp only at hi hw
  subst hi
  subst hw
  cases ip <;> cases wp <;> cases f9 <;> simp [CCS811.close]

theorem close_ok_state (s s2 : CCS811) (u : Unit) (h : s.close = (.ok u, s2)) :
    s2.interruptPin = .assigned none ∧ s2.wakeupPin = .assigned none ∧
    s2.isOpen = false := by
  rcases hi : s.interruptPin with _ | ip
  · unfold CCS811.close at h
    rw [hi] at h
    simp at h
  · rcases hw : s.wakeupPin with _ | wp
    · unfold CCS811.close at h
      rw [hi] at h
      rcases ip with _ | p <;> simp [hw] at h
    · rw [close_assigned s ip wp hi hw] at h
      have h2 : s2 = { s with interruptPin := .assigned none,
                              wakeupPin := .assigned none, isOpen := false } := by
        have hsnd := congrArg Prod.snd h
        simpa using hsnd.symm
      rw [h2]
      exact ⟨rfl, rfl, rfl⟩

theorem close_err_kind (s s2 : CCS811) (k : EKind) (h : s.close = (.error k, s2)) :
    k = .attrError := by
  rcases hi : s.interruptPin with _ | ip
  · unfold CCS811.close at h
    rw [hi] at h
    simp at h
    exact h.1.symm
  · rcases hw : s.wakeupPin with _ | wp
    · unfold CCS811.close at h
      rw [hi] at h
      rcases ip with _ | p <;> simp [hw] at h <;> exact h.1.symm
    · rw [close_assigned s ip wp hi hw] at h
      simp at h

theorem initHandler_fst (k : EKind) (sE : CCS811) :
    ∃ k2 s2, initHandler k sE = (.error k2, s2) := by
  unfold initHandler
  split
  · rcases h : sE.close with ⟨r, s2⟩
    cases r <;> exact ⟨_, _, rfl⟩
  · exact ⟨_, _, rfl⟩

theorem initHandler_caught (k : EKind) (sE : CCS811) (k2 : EKind) (s2 : CCS811)
    (hc : k = .valueError ∨ k = .gpioError)
    (h : initHandler k sE = (.error k2, s2))
    (hk2 : k2 = .valueError ∨ k2 = .gpioError) :
    s2.interruptPin = .assigned none ∧ s2.wakeupPin = .assigned none ∧
    s2.isOpen = false := by
  unfold initHandler at h
  rw [if_pos hc] at h
  rcases hcl : sE.close with ⟨r, s3⟩
  rw [hcl] at h
  cases r with
  | ok u =>
    have hs : s2 = s3 := by
      have := congrArg Prod.snd h
      simpa using this.symm
    rw [hs]
    exact close_ok_state sE s3 u hcl
  | error ke =>
    have hke : ke = .attrError := close_err_kind sE s3 ke hcl
    have hk2e : k2 = ke := by
      have := congrArg Prod.fst h
      simp at this
      exact this.symm
    rw [hk2e, hke] at hk2
    rcases hk2 with h' | h' <;> cases h'

/-- C2 amended: after parameter validation, every construction failure
that is raised as `ValueError` or `GPIOError` and escapes as such (the
identity check, status/error checks, app-start and mode-programming
failures, all of which occur after both pin attributes are assigned) runs
`close()` to completion before the error surfaces: both pin attributes
are cleared and the handle is marked not-open, and no handle is returned.
Transport-level failures of other exception kinds (`OSError`) are NOT in
the caught set and propagate without cleanup, and a pin-acquisition
failure makes the cleanup itself die with `AttributeError`, so neither
escapes with a `ValueError`/`GPIOError` kind. -/
theorem C2_cleanup_for_caught_errors (p : InitParams) (o : InitOracle)
    (k : EKind) (s' : CCS811)
    (hAddr : p.i2cAddress = 0x5A ∨ p.i2cAddress = 0x5B)
    (hInt1 : 1 ≤ p.measInterval) (hInt4 : p.measInterval ≤ 4)
    (hFake : ∀ e, o.fakeBlockRead ≠ .error e)
    (hrun : ccsInit p o = (.error k, s'))
    (hk : k = .valueError ∨ k = .gpioError) :
    s'.interruptPin = .assigned none ∧ s'.wakeupPin = .assigned none ∧
    s'.isOpen = false := by
  have hA : ¬¬(p.i2cAddress = 0x5A ∨ p.i2cAddress = 0x5B) := not_not_intro hAddr
  have hM : ¬(p.measInterval < 1 ∨ 4 < p.measInterval) := by omega
  simp only [ccsInit, if_neg hA, if_neg hM] at hrun
  rcases hpins : initPins p o with ⟨kp, sp⟩ | sp
  · simp only [hpins] at hrun
    by_cases hkp : kp = .valueError ∨ kp = .gpioError
    · exact initHandler_caught kp sp k s' hkp hrun hk
    · unfold initHandler at hrun
      rw [if_neg hkp] at hrun
      simp at hrun
      rw [← hrun.1] at hk
      exact absurd hk hkp
  · simp only [hpins] at hrun
    rcases hchip : initChip o sp with ⟨kc, sc⟩ | sc
    · simp only [hchip] at hrun
      by_cases hkc : kc = .valueError ∨ kc = .gpioError
      · exact initHandler_caught kc sc k s' hkc hrun hk
      · unfold initHandler at hrun
        rw [if_neg hkc] at hrun
        simp at hrun
        rw [← hrun.1] at hk
        exact absurd hk hkc
    · simp only [hchip] at hrun
      cases hip : p.hasInterruptPin
      · simp only [hip] at hrun
        simp at hrun
      · simp only [hip] at hrun
        rcases hfb : o.fakeBlockRead with e | data
        · exact absurd hfb (hFake e)
        · simp only [hfb] at hrun
          simp at hrun

theorem C2_cleanup_witness :
    (demoParams.i2cAddress = 0x5A ∨ demoParams.i2cAddress = 0x5B) ∧
    1 ≤ demoParams.measInterval ∧ demoParams.measInterval ≤ 4 ∧
    (∀ e, oracleBadId.fakeBlockRead ≠ .error e) ∧
    ccsInit demoParams oracleBadId = (.error .valueError, cleanedState) ∧
    (EKind.valueError = .valueError ∨ EKind.valueError = .gpioError) ∧
    (cleanedState.interruptPin = .assigned none ∧
     cleanedState.wakeupPin = .assigned none ∧
     cleanedState.isOpen = false) :=
  ⟨Or.inr rfl, by decide, by decide, by intro e; simp [oracleBadId, demoOracle],
   rfl, Or.inl rfl,
   C2_cleanup_for_caught_errors demoParams oracleBadId
     .valueError cleanedState (Or.inr rfl) (by decide) (by decide)
     (by intro e; simp [oracleBadId, demoOracle]) rfl (Or.inl rfl)⟩

theorem readData_stopped (s : CCS811) (data : List ℕ) (t h : ℚ)
    (hs : s.stopped = true) : (s.readData data t h).1 = s := by
  unfold CCS811.readData
  rw [hs]
  rfl

theorem readData_invalid_state (s : CCS811) (data : List ℕ) (t h : ℚ)
    (hstop : s.stopped = false)
    (hcase : (data[0]! <<< 8) ||| data[1]! < 400 ∨ data.length < 4) :
    (s.readData data t h).1 =
      { s with CO2 := none, tVOC := none, staleCO2 := true, staletVOC := true } := by
  unfold CCS811.readData
  rw [hstop]
  by_cases h2 : 2 ≤ data.length
  · rcases hcase with hlo | hshort
    · simp [h2, hlo]
    · by_cases hlo : (data[0]! <<< 8) ||| data[1]! < 400
      · simp [h2, hlo]
      · have h4 : ¬ 4 ≤ data.length := by omega
        simp [h2, hlo, h4]
  · simp [h2]

theorem readData_valid_state (s : CCS811) (data : List ℕ) (t h : ℚ)
    (hstop : s.stopped = false) (h4 : 4 ≤ data.length)
    (hge : 400 ≤ (data[0]! <<< 8) ||| data[1]!) :
    (s.readData data t h).1 =
      { s with CO2 := some ((data[0]! <<< 8) ||| data[1]!),
               tVOC := some ((data[2]! <<< 8) ||| data[3]!),
               staleCO2 := false, staletVOC := false } := by
  unfold CCS811.readData
  rw [hstop]
  have h2 : 2 ≤ data.length := by omega
  have hlo : ¬((data[0]! <<< 8) ||| data[1]! < 400) := by omega
  simp [h2, hlo, h4]

theorem errorCondition_snd (s : CCS811) (sr er : Except EKind ℕ) :
    ∃ c : ℕ, (s.errorCondition sr er).2 = { s with errorCode := c } := by
  rcases sr with k | st
  · exact ⟨_, rfl⟩
  · by_cases hb : st &&& (1 <<< CCS811.ERROR_BIT) = 0
    · exact ⟨0, by simp [CCS811.errorCondition, hb]⟩
    · rcases er with k | c
      · exact ⟨1 <<< 6, by simp [CCS811.errorCondition, hb]⟩
      · by_cases hc : c = 0
        · exact ⟨1 <<< 7, by simp [CCS811.errorCondition, hb, hc]⟩
        · exact ⟨c, by simp [CCS811.errorCondition, hb, hc]⟩

theorem errorCondition_false (s : CCS811) (sr er : Except EKind ℕ)
    (h : (s.errorCondition sr er).1 = false) :
    (s.errorCondition sr er).2 = { s with errorCode := 0 } := by
  rcases sr with k | st
  · simp [CCS811.errorCondition] at h
  · by_cases hb : st &&& (1 <<< CCS811.ERROR_BIT) = 0
    · simp [CCS811.errorCondition, hb]
    · rcases er with k | c
      · simp [CCS811.errorCondition, hb] at h
      · by_cases hc : c = 0 <;> simp [CCS811.errorCondition, hb, hc] at h

theorem initPins_ok (p : InitParams) (o : InitOracle) (s : CCS811)
    (h : initPins p o = .ok s) :
    s.CO2 = none ∧ s.tVOC = none ∧ s.stopped = true := by
  unfold initPins at h
  cases hip : p.hasInterruptPin <;>
  cases hwp : p.hasWakeupPin <;>
  rcases hia : o.interruptAcq with _ | _ <;>
  rcases hwa : o.wakeupAcq with _ | _ <;>
  rcases hws : o.wakeupSetLow with _ | _ <;>
  simp_all [initFields]
  all_goals
    rw [← h]
    exact ⟨rfl, rfl, rfl⟩

theorem initChip_ok (o : InitOracle) (s s2 : CCS811)
    (h : initChip o s = .ok s2) :
    s2 = { s with isOpen := true, errorCode := 0 } := by
  unfold initChip at h
  rcases hhw : o.hwIdRead with k | v <;> simp only [hhw] at h
  · exact absurd h (by simp)
  by_cases hv : v ≠ CCS811.HW_ID
  · rw [if_pos hv] at h
    exact absurd h (by simp)
  rw [if_neg hv] at h
  rcases hst : o.statusRead with k | st <;> simp only [hst] at h
  · exact absurd h (by simp)
  by_cases hbit : st &&& (1 <<< CCS811.ERROR_BIT) ≠ 0
  · rw [if_pos hbit] at h
    rcases he : o.errorIdRead with k | c <;> simp only [he] at h <;>
      exact absurd h (by simp)
  rw [if_neg hbit] at h
  by_cases hav : st &&& (1 <<< CCS811.APP_VALID_BIT) = 0
  · rw [if_pos hav] at h
    exact absurd h (by simp)
  rw [if_neg hav] at h
  rcases has : o.appStartWrite with k | u <;> simp only [has] at h
  · exact absurd h (by simp)
  by_cases he1 : ({ s with isOpen := true } : CCS811).errorCondition
      o.errCheck1Status o.errCheck1ErrId |>.1
  · rw [if_pos he1] at h
    exact absurd h (by simp)
  rw [if_neg he1] at h
  rcases hmw : o.modeWrite with k | u <;> simp only [hmw] at h
  · exact absurd h (by simp)
  have e1 := errorCondition_false _ o.errCheck1Status o.errCheck1ErrId
    (by simpa using he1)
  rw [e1] at h
  by_cases he2 : ({ s with isOpen := true, errorCode := 0 } : CCS811).errorCondition
      o.errCheck2Status o.errCheck2ErrId |>.1
  · rw [if_pos he2] at h
    exact absurd h (by simp)
  rw [if_neg he2] at h
  have e2 := errorCondition_false _ o.errCheck2Status o.errCheck2ErrId
    (by simpa using he2)
  rw [e2] at h
  simpa using h.symm

theorem ccsInit_ok_fields (p : InitParams) (o : InitOracle) (s : CCS811)
    (h : ccsInit p o = (.ok (), s)) :
    s.CO2 = none ∧ s.tVOC = none := by
  unfold ccsInit at h
  by_cases hA : ¬(p.i2cAddress = 0x5A ∨ p.i2cAddress = 0x5B)
  · rw [if_pos hA] at h
    exact absurd h (by simp)
  rw [if_neg hA] at h
  by_cases hM : p.measInterval < 1 ∨ 4 < p.measInterval
  · rw [if_pos hM] at h
    exact absurd h (by simp)
  rw [if_neg hM] at h
  rcases hpins : initPins p o with ⟨kp, sp⟩ | sp <;> simp only [hpins] at h
  · obtain ⟨k2, s2, hh⟩ := initHandler_fst kp sp
    rw [hh] at h
    exact absurd h (by simp)
  rcases hchip : initChip o sp with ⟨kc, sc⟩ | sc <;> simp only [hchip] at h
  · obtain ⟨k2, s2, hh⟩ := initHandler_fst kc sc
    rw [hh] at h
    exact absurd h (by simp)
  have hsc : sc = { sp with isOpen := true, errorCode := 0 } := initChip_ok o sp sc hchip
  obtain ⟨hc1, hc2, hc3⟩ := initPins_ok p o sp hpins
  cases hip : p.hasInterruptPin <;> simp only [hip] at h
  · have hs : s = { sc with stopped := false } := by
      have := congrArg Prod.snd h
      simpa using this.symm
    rw [hs, hsc]
    exact ⟨hc1, hc2⟩
  · rcases hfb : o.fakeBlockRead with e | data <;> simp only [hfb] at h
    · exact absurd h (by simp)
    · have hstop : sc.stopped = true := by
        rw [hsc]
        exact hc3
      rw [readData_stopped sc data 0 0 hstop] at h
      have hs : s = { sc with stopped := false } := by
        have := congrArg Prod.snd h
        simpa using this.symm
      rw [hs, hsc]
      exact ⟨hc1, hc2⟩

theorem sleep_fields (s : CCS811) :
    (s.sleep).2.1.CO2 = s.CO2 ∧ (s.sleep).2.1.tVOC = s.tVOC := by
  unfold CCS811.sleep
  rcases s.wakeupPin with _ | (_ | p) <;> exact ⟨rfl, rfl⟩

theorem wake_fields (s : CCS811) :
    (s.wake).2.1.CO2 = s.CO2 ∧ (s.wake).2.1.tVOC = s.tVOC := by
  unfold CCS811.wake
  rcases s.wakeupPin with _ | (_ | p) <;> exact ⟨rfl, rfl⟩

theorem close_fields (s : CCS811) :
    (s.close).2.CO2 = s.CO2 ∧ (s.close).2.tVOC = s.tVOC := by
  unfold CCS811.close
  rcases s.interruptPin with _ | ip
  · exact ⟨rfl, rfl⟩
  · rcases ip with _ | p <;>
    · rcases hwp : s.wakeupPin with _ | wp
      · simp [hwp]
      · rcases wp with _ | q <;> simp [hwp] <;> split <;> simp
  
theorem dataReady_state (s : CCS811) (resp : ℕ → Except EKind ℕ)
    (block : List ℕ) (t h : ℚ) :
    (s.dataReady resp block t h).2.1 = s ∨
    (s.dataReady resp block t h).2.1 = (s.readData block t h).1 := by
  unfold CCS811.dataReady
  by_cases hs : s.stopped = true
  · rw [hs]
    exact Or.inl rfl
  · rw [Bool.not_eq_true] at hs
    rw [hs]
    rcases readStatusAttempts resp s.attempts 0 with k | st
    · exact Or.inl rfl
    · rcases st with _ | status
      · exact Or.inl rfl
      · by_cases hbit : status &&& (1 <<< CCS811.DATA_READY_BIT) ≠ 0
        · exact Or.inr (by simp [hbit])
        · exact Or.inl (by simp [hbit])

theorem readData_preserves_inv (s : CCS811) (data : List ℕ) (t h : ℚ)
    (hs : MeasInvariant s) : MeasInvariant (s.readData data t h).1 := by
  by_cases hstop : s.stopped = true
  · rw [readData_stopped s data t h hstop]
    exact hs
  · rw [Bool.not_eq_true] at hstop
    by_cases hvalid : 4 ≤ data.length ∧ 400 ≤ (data[0]! <<< 8) ||| data[1]!
    · rw [readData_valid_state s data t h hstop hvalid.1 hvalid.2]
      intro v hv
      exact ⟨(data[0]! <<< 8) ||| data[1]!, rfl, hvalid.2⟩
    · have hcase : (data[0]! <<< 8) ||| data[1]! < 400 ∨ data.length < 4 := by
        omega
      rw [readData_invalid_state s data t h hstop hcase]
      intro v hv
      cases hv

/-- C5: on every reachable handle state, tVOC is present only if CO2 is
present and at least 400 (preserved by construction and by every
operation); and any invalid read — CO2 bytes below 400 or a short block —
makes both values simultaneously absent. -/
theorem C5_measurement_invariant :
    (∀ s, Reachable s → MeasInvariant s) ∧
    (∀ (s : CCS811) (data : List ℕ) (t h : ℚ), s.stopped = false →
      ((data[0]! <<< 8) ||| data[1]! < 400 ∨ data.length < 4) →
      (s.readData data t h).1.CO2 = none ∧ (s.readData data t h).1.tVOC = none) := by
  constructor
  · intro s hr
    induction hr with
    | init p o s h =>
      obtain ⟨hco2, htvoc⟩ := ccsInit_ok_fields p o s h
      intro v hv
      rw [htvoc] at hv
      cases hv
    | read s data t h _ ih => exact readData_preserves_inv s data t h ih
    | co2 s _ ih => exact fun v hv => ih v hv
    | tvoc s _ ih => exact fun v hv => ih v hv
    | sleepStep s _ ih =>
      obtain ⟨h1, h2⟩ := sleep_fields s
      intro v hv
      rw [h2] at hv
      obtain ⟨c, hc, hge⟩ := ih v hv
      exact ⟨c, by rw [h1]; exact hc, hge⟩
    | wakeStep s _ ih =>
      obtain ⟨h1, h2⟩ := wake_fields s
      intro v hv
      rw [h2] at hv
      obtain ⟨c, hc, hge⟩ := ih v hv
      exact ⟨c, by rw [h1]; exact hc, hge⟩
    | closeStep s _ ih =>
      obtain ⟨h1, h2⟩ := close_fields s
      intro v hv
      rw [h2] at hv
      obtain ⟨c, hc, hge⟩ := ih v hv
      exact ⟨c, by rw [h1]; exact hc, hge⟩
    | ready s resp block t h _ ih =>
      rcases dataReady_state s resp block t h with heq | heq
      · rw [heq]
        exact ih
      · rw [heq]
        exact readData_preserves_inv s block t h ih
    | errCond s sr er _ ih =>
      obtain ⟨c, heq⟩ := errorCondition_snd s sr er
      rw [heq]
      intro v hv
      exact ih v hv
  · intro s data t h hstop hcase
    rw [readData_invalid_state s data t h hstop hcase]
    exact ⟨rfl, rfl⟩

theorem C5_invariant_witness :
    Reachable runningState ∧
    runningState.stopped = false ∧
    ((([0, 0, 0, 0] : List ℕ)[0]! <<< 8) ||| ([0, 0, 0, 0] : List ℕ)[1]! < 400 ∨
      ([0, 0, 0, 0] : List ℕ).length < 4) ∧
    (runningState.readData [0, 0, 0, 0] 0 0).1.CO2 = none ∧
    (runningState.readData [0, 0, 0, 0] 0 0).1.tVOC = none ∧
    MeasInvariant runningState :=
  ⟨Reachable.init demoParams demoOracle runningState rfl, rfl, Or.inl (by decide),
   (C5_measurement_invariant.2 runningState [0, 0, 0, 0] 0 0 rfl (Or.inl (by decide))).1,
   (C5_measurement_invariant.2 runningState [0, 0, 0, 0] 0 0 rfl (Or.inl (by decide))).2,
   C5_measurement_invariant.1 runningState
     (Reachable.init demoParams demoOracle runningState rfl)⟩
